import Mathlib

/-!
Shallow embedding of the `prompt-tuner` Flask shell
(`src/prompt-tuner/app/app.py` and `src/prompt-tuner/app/utils/app_info.py`).

Python strings are modelled as Lean `String`; Python dicts whose values are
strings or booleans are modelled as association lists in insertion order,
so that claims about key sets ("exactly six keys", "no `error` key") are
directly statable.  The file system, the environment variables, the
interpreter version and the current UTC time are explicit parameters: the
Python functions read them implicitly, the embedding passes them in.
-/

namespace PromptTuner

/-- ASCII whitespace recognised by Python `str.strip()` (the descriptor file
is ASCII, so the unicode cases of `str.isspace` do not arise). -/
def pyIsSpaceB (c : Char) : Bool :=
  c = ' ' || c = '\t' || c = '\n' || c = '\r' || c = '\x0b' || c = '\x0c'

/-- The characters stripped by `str.strip('"\'')`: the double quote and the
single quote (codepoint 39). -/
def quoteCharB (c : Char) : Bool :=
  c = '"' || c.toNat = 39

/-- Remove the characters satisfying `p` from both ends of a list,
as Python's two-sided `str.strip` does. -/
def stripList (p : Char → Bool) (l : List Char) : List Char :=
  ((l.dropWhile p).reverse.dropWhile p).reverse

/-- Python `line.strip()`. -/
def pyStrip (s : String) : String :=
  ⟨stripList pyIsSpaceB s.data⟩

/-- Python `value.strip('"\'')`. -/
def pyStripQuotes (s : String) : String :=
  ⟨stripList quoteCharB s.data⟩

/-- Boolean list-prefix test (first argument is the candidate prefix). -/
def isPrefixB : List Char → List Char → Bool
  | [], _ => true
  | _ :: _, [] => false
  | a :: as, b :: bs => a = b && isPrefixB as bs

/-- Python `s.startswith(p)`. -/
def pyStartsWith (s p : String) : Bool :=
  isPrefixB p.data s.data

/-- Split a character list at every occurrence of `sep`, keeping empty
pieces, as Python `str.split(sep)` does for a one-character separator. -/
def splitChar (sep : Char) : List Char → List (List Char)
  | [] => [[]]
  | c :: cs =>
    if c = sep then [] :: splitChar sep cs
    else
      match splitChar sep cs with
      | [] => [[c]]
      | g :: gs => (c :: g) :: gs

/-- Python `s.split(sep)` for a one-character separator. -/
def pySplit (sep : Char) (s : String) : List String :=
  (splitChar sep s.data).map (fun l => ⟨l⟩)

/-- Python `s.lower()` (ASCII case mapping, which is all the code compares). -/
def pyLower (s : String) : String :=
  ⟨s.data.map Char.toLower⟩

/-- A Python dict value occurring in this program: a string or a boolean. -/
inductive Value where
  | str (s : String)
  | bool (b : Bool)
deriving DecidableEq

/-- The two environment variables the code consults, `none` when unset
(`os.getenv` then yields the supplied default). -/
structure Env where
  flask_env : Option String
  flask_debug : Option String
deriving DecidableEq

/-- `sys.version_info`'s first three components. -/
structure PyVersion where
  major : Nat
  minor : Nat
  micro : Nat
deriving DecidableEq

/-- The observable states of the descriptor file (`pyproject.toml`):
absent (`exists()` is false), present with the given physical lines, or
any exception raised while opening/reading it (message `e`). -/
inductive FileSys where
  | absent
  | present (lines : List String)
  | raises (e : String)
deriving DecidableEq

/-- A UTC instant as `datetime.utcnow()` yields it. -/
structure DateTime where
  year : Nat
  month : Nat
  day : Nat
  hour : Nat
  minute : Nat
  second : Nat
  microsecond : Nat
deriving DecidableEq

/-- `f"{sys.version_info.major}.{sys.version_info.minor}.{sys.version_info.micro}"`. -/
def verString (v : PyVersion) : String :=
  toString v.major ++ "." ++ toString v.minor ++ "." ++ toString v.micro

/-- `line.split('=')[1].strip().strip('"\'')`, with `none` for the
`IndexError` Python would raise if the line had no `'='`. -/
def extractVal (line : String) : Option String :=
  ((pySplit '=' line)[1]?).map (fun v => pyStripQuotes (pyStrip v))

/-- The `for line in f` loop of `get_app_info`: strip each line, let a
`name = ` line overwrite the name accumulator and (elif) a `version = `
line overwrite the version accumulator; an `IndexError` from the
extraction would abort the loop as an exception. -/
def scanProject : List String → String → String → Except String (String × String)
  | [], n, v => .ok (n, v)
  | l :: ls, n, v =>
    let line := pyStrip l
    if pyStartsWith line "name = " then
      match extractVal line with
      | some x => scanProject ls x v
      | none => .error "list index out of range"
    else if pyStartsWith line "version = " then
      match extractVal line with
      | some x => scanProject ls n x
      | none => .error "list index out of range"
    else scanProject ls n v

/-- `get_app_info()` from `app/utils/app_info.py`, with the implicit reads
made explicit: `ver` is `sys.version_info`, `fs` the descriptor-file state,
`env` the environment.  The `raises` case and an error from the scan loop
land in the `except Exception` branch, which returns the fallback dict with
the `error` field; the function itself is total — no exception escapes. -/
def get_app_info (ver : PyVersion) (fs : FileSys) (env : Env) : List (String × Value) :=
  match fs with
  | .absent =>
    [("name", Value.str "prompt-tuner"),
     ("version", Value.str "unknown"),
     ("python_version", Value.str (verString ver)),
     ("environment", Value.str (env.flask_env.getD "development")),
     ("debug_mode", Value.bool (pyLower (env.flask_debug.getD "false") == "true"))]
  | .present lines =>
    match scanProject lines "prompt-tuner" "unknown" with
    | .ok (n, v) =>
      [("name", Value.str n),
       ("version", Value.str v),
       ("python_version", Value.str (verString ver)),
       ("environment", Value.str (env.flask_env.getD "development")),
       ("debug_mode", Value.bool (pyLower (env.flask_debug.getD "false") == "true"))]
    | .error e =>
      [("name", Value.str "prompt-tuner"),
       ("version", Value.str "unknown"),
       ("python_version", Value.str (verString ver)),
       ("environment", Value.str (env.flask_env.getD "development")),
       ("debug_mode", Value.bool (pyLower (env.flask_debug.getD "false") == "true")),
       ("error", Value.str ("Failed to read project info: " ++ e))]
  | .raises e =>
    [("name", Value.str "prompt-tuner"),
     ("version", Value.str "unknown"),
     ("python_version", Value.str (verString ver)),
     ("environment", Value.str (env.flask_env.getD "development")),
     ("debug_mode", Value.bool (pyLower (env.flask_debug.getD "false") == "true")),
     ("error", Value.str ("Failed to read project info: " ++ e))]

/-- One decimal digit character; for `n < 10` this is the digit of `n`. -/
def digitChar (n : Nat) : Char :=
  Char.ofNat (48 + n % 10)

/-- `"%02d" % n` for `n < 100`, as characters. -/
def pad2c (n : Nat) : List Char :=
  [digitChar (n / 10), digitChar n]

/-- `"%04d" % n` for `n < 10000`, as characters. -/
def pad4c (n : Nat) : List Char :=
  [digitChar (n / 1000), digitChar (n / 100), digitChar (n / 10), digitChar n]

/-- `"%06d" % n` for `n < 1000000`, as characters. -/
def pad6c (n : Nat) : List Char :=
  [digitChar (n / 100000), digitChar (n / 10000), digitChar (n / 1000),
   digitChar (n / 100), digitChar (n / 10), digitChar n]

/-- The characters of `datetime.isoformat()`:
`YYYY-MM-DDTHH:MM:SS` plus `.ffffff` when the microsecond is nonzero. -/
def isoChars (dt : DateTime) : List Char :=
  pad4c dt.year ++ ['-'] ++ pad2c dt.month ++ ['-'] ++ pad2c dt.day ++ ['T'] ++
  pad2c dt.hour ++ [':'] ++ pad2c dt.minute ++ [':'] ++ pad2c dt.second ++
  (if dt.microsecond = 0 then [] else '.' :: pad6c dt.microsecond)

/-- Python `dt.isoformat()` for a naive UTC datetime. -/
def pyIsoformat (dt : DateTime) : String :=
  ⟨isoChars dt⟩

/-- `get_health_status()` from `app/utils/app_info.py`: calls
`get_app_info`, then builds a fresh dict from four of its entries plus the
constant status and a fresh timestamp.  A dict lookup is Python `d[k]`;
a missing key (`KeyError`) yields `none`, since `get_health_status` has no
exception handler of its own. -/
def get_health_status (ver : PyVersion) (fs : FileSys) (env : Env) (now : DateTime) :
    Option (List (String × Value)) :=
  let app_info := get_app_info ver fs env
  match app_info.lookup "name", app_info.lookup "version",
        app_info.lookup "python_version", app_info.lookup "environment" with
  | some n, some v, some p, some e =>
    some [("status", Value.str "healthy"),
          ("timestamp", Value.str (pyIsoformat now ++ "Z")),
          ("service", n),
          ("version", v),
          ("python_version", p),
          ("environment", e)]
  | _, _, _, _ => none

/-- The `/health` route handler of `app/app.py`:
`return jsonify(get_health_status()), 200`. -/
def health_check (ver : PyVersion) (fs : FileSys) (env : Env) (now : DateTime) :
    Option (List (String × Value) × Nat) :=
  (get_health_status ver fs env now).map (fun body => (body, 200))

/-- Recogniser for the tail of an ISO-8601 UTC timestamp after the seconds:
either just `Z`, or a dot, six fraction digits and `Z`. -/
def isoTailB : List Char → Bool
  | [z] => z = 'Z'
  | p :: u1 :: u2 :: u3 :: u4 :: u5 :: u6 :: [z] =>
    p = '.' && u1.isDigit && u2.isDigit && u3.isDigit && u4.isDigit &&
    u5.isDigit && u6.isDigit && z = 'Z'
  | _ => false

/-- Character-level recogniser for an ISO-8601 UTC timestamp with a
trailing `Z`: `YYYY-MM-DDTHH:MM:SSZ` or `YYYY-MM-DDTHH:MM:SS.ffffffZ`.
Defined by pattern matching, independently of `pyIsoformat`. -/
def isIso8601UTCZ (s : String) : Bool :=
  match s.data with
  | y1 :: y2 :: y3 :: y4 :: c1 :: m1 :: m2 :: c2 :: d1 :: d2 :: c3 ::
    h1 :: h2 :: c4 :: mi1 :: mi2 :: c5 :: s1 :: s2 :: rest =>
    y1.isDigit && y2.isDigit && y3.isDigit && y4.isDigit && c1 = '-' &&
    m1.isDigit && m2.isDigit && c2 = '-' && d1.isDigit && d2.isDigit && c3 = 'T' &&
    h1.isDigit && h2.isDigit && c4 = ':' && mi1.isDigit && mi2.isDigit && c5 = ':' &&
    s1.isDigit && s2.isDigit && isoTailB rest
  | _ => false

/-- The `k` entry of a dict when it is present and holds a string. -/
def strField (d : List (String × Value)) (k : String) : Option String :=
  match d.lookup k with
  | some (Value.str s) => some s
  | _ => none

/-- A concrete interpreter version, for witnesses. -/
def ver0 : PyVersion := ⟨3, 12, 3⟩

/-- A concrete environment with both variables unset, for witnesses. -/
def env0 : Env := ⟨none, none⟩

/-- A concrete UTC instant, for witnesses. -/
def dt0 : DateTime := ⟨2025, 10, 12, 1, 2, 3, 4⟩

lemma digit_isDigit (m : Nat) (h : m < 10) : (Char.ofNat (48 + m)).isDigit = true := by
  interval_cases m <;> decide

lemma digitChar_isDigit (n : Nat) : (digitChar n).isDigit = true := by
  unfold digitChar
  exact digit_isDigit (n % 10) (Nat.mod_lt _ (by decide))

lemma isoZ_ok (dt : DateTime) : isIso8601UTCZ (pyIsoformat dt ++ "Z") = true := by
  have hdata : (pyIsoformat dt ++ "Z").data = isoChars dt ++ ['Z'] := by
    rw [String.data_append]; rfl
  unfold isIso8601UTCZ
  rw [hdata]
  by_cases h : dt.microsecond = 0 <;>
    simp [isoChars, pad4c, pad2c, pad6c, h, isoTailB, digitChar_isDigit]

lemma isPrefixB_mem {p l : List Char} (h : isPrefixB p l = true) {a : Char}
    (ha : a ∈ p) : a ∈ l := by
  induction p generalizing l with
  | nil => cases ha
  | cons x xs ih =>
    cases l with
    | nil => simp [isPrefixB] at h
    | cons y ys =>
      simp only [isPrefixB, Bool.and_eq_true, decide_eq_true_eq] at h
      obtain ⟨rfl, h2⟩ := h
      rcases List.mem_cons.mp ha with rfl | ha'
      · exact List.mem_cons_self _ _
      · exact List.mem_cons_of_mem _ (ih h2 ha')

lemma splitChar_ne_nil (sep : Char) (l : List Char) : splitChar sep l ≠ [] := by
  induction l with
  | nil => simp [splitChar]
  | cons c cs ih =>
    simp only [splitChar]
    split
    · simp
    · split
      · simp
      · simp

lemma two_le_splitChar {sep : Char} {l : List Char} (h : sep ∈ l) :
    2 ≤ (splitChar sep l).length := by
  induction l with
  | nil => cases h
  | cons c cs ih =>
    simp only [splitChar]
    by_cases hc : c = sep
    · rw [if_pos hc]
      have h1 : 0 < (splitChar sep cs).length :=
        List.length_pos.mpr (splitChar_ne_nil sep cs)
      simp only [List.length_cons]
      omega
    · rw [if_neg hc]
      have hcs : sep ∈ cs := by
        rcases List.mem_cons.mp h with h' | h'
        · exact absurd h'.symm hc
        · exact h'
      have h2 := ih hcs
      rcases hsp : splitChar sep cs with _ | ⟨g, gs⟩
      · exact absurd hsp (splitChar_ne_nil sep cs)
      · rw [hsp] at h2
        simp only [List.length_cons] at h2 ⊢
        omega

lemma extractVal_isSome {line : String} (h : '=' ∈ line.data) :
    ∃ x, extractVal line = some x := by
  have hlt : 1 < (pySplit '=' line).length := by
    unfold pySplit
    rw [List.length_map]
    exact two_le_splitChar h
  obtain ⟨a, ha⟩ : ∃ a, (pySplit '=' line)[1]? = some a :=
    ⟨_, List.getElem?_eq_getElem hlt⟩
  exact ⟨_, by unfold extractVal; rw [ha]; rfl⟩

lemma startsWith_name_mem_eq {s : String}
    (h : pyStartsWith s "name = " = true) : '=' ∈ s.data := by
  exact isPrefixB_mem h (by decide)

lemma startsWith_version_mem_eq {s : String}
    (h : pyStartsWith s "version = " = true) : '=' ∈ s.data := by
  exact isPrefixB_mem h (by decide)

lemma version_not_name {s : String}
    (h : pyStartsWith s "version = " = true) : pyStartsWith s "name = " = false := by
  unfold pyStartsWith at h ⊢
  cases hd : s.data with
  | nil => rw [hd] at h; exact absurd h (by decide)
  | cons c cs =>
    rw [hd] at h
    have hv : "version = ".data = 'v' :: "ersion = ".data := rfl
    have hn : "name = ".data = 'n' :: "ame = ".data := rfl
    rw [hv] at h
    rw [hn]
    simp only [isPrefixB, Bool.and_eq_true, decide_eq_true_eq] at h
    obtain ⟨rfl, -⟩ := h
    simp [isPrefixB]

lemma scanProject_no_match (lines : List String) :
    ∀ n v, (∀ l ∈ lines, pyStartsWith (pyStrip l) "name = " = false ∧
      pyStartsWith (pyStrip l) "version = " = false) →
    scanProject lines n v = .ok (n, v) := by
  induction lines with
  | nil => intro n v _; rfl
  | cons l ls ih =>
    intro n v h
    obtain ⟨h1, h2⟩ := h l (List.mem_cons_self l ls)
    simp only [scanProject]
    rw [if_neg (by simp [h1]), if_neg (by simp [h2])]
    exact ih n v (fun x hx => h x (List.mem_cons_of_mem _ hx))

lemma scanProject_ok (lines : List String) :
    ∀ n v, ∃ p, scanProject lines n v = .ok p := by
  induction lines with
  | nil => exact fun n v => ⟨(n, v), rfl⟩
  | cons l ls ih =>
    intro n v
    simp only [scanProject]
    by_cases h1 : pyStartsWith (pyStrip l) "name = " = true
    · rw [if_pos h1]
      obtain ⟨x, hx⟩ := extractVal_isSome (startsWith_name_mem_eq h1)
      rw [hx]
      exact ih x v
    · rw [if_neg h1]
      by_cases h2 : pyStartsWith (pyStrip l) "version = " = true
      · rw [if_pos h2]
        obtain ⟨x, hx⟩ := extractVal_isSome (startsWith_version_mem_eq h2)
        rw [hx]
        exact ih n x
      · rw [if_neg h2]
        exact ih n v

lemma scanProject_append (xs ys : List String) :
    ∀ n v, scanProject (xs ++ ys) n v =
      (scanProject xs n v).bind (fun p => scanProject ys p.1 p.2) := by
  induction xs with
  | nil => intro n v; rfl
  | cons l ls ih =>
    intro n v
    by_cases h1 : pyStartsWith (pyStrip l) "name = " = true
    · cases hx : extractVal (pyStrip l) with
      | none => simp [List.cons_append, scanProject, h1, hx, Except.bind]
      | some x =>
        simp only [List.cons_append, scanProject, h1, if_true, hx]
        exact ih x v
    · by_cases h2 : pyStartsWith (pyStrip l) "version = " = true
      · cases hx : extractVal (pyStrip l) with
        | none => simp [List.cons_append, scanProject, h1, h2, hx, Except.bind]
        | some x =>
          simp only [List.cons_append, scanProject, h1, h2, hx, if_true, if_false,
            Bool.false_eq_true, ite_false, ite_true]
          exact ih n x
      · simp only [List.cons_append, scanProject, h1, h2, if_false, Bool.false_eq_true,
          ite_false]
        exact ih n v

lemma scanProject_ne_empty (lines : List String) :
    ∀ n v p, (∀ l ∈ lines,
        (pyStartsWith (pyStrip l) "name = " = true ∨
         pyStartsWith (pyStrip l) "version = " = true) →
        extractVal (pyStrip l) ≠ some "") →
      n ≠ "" → v ≠ "" → scanProject lines n v = .ok p → p.1 ≠ "" ∧ p.2 ≠ "" := by
  induction lines with
  | nil =>
    intro n v p _ hn hv he
    obtain rfl : (n, v) = p := by injection he
    exact ⟨hn, hv⟩
  | cons l ls ih =>
    intro n v p h hn hv he
    simp only [scanProject] at he
    by_cases h1 : pyStartsWith (pyStrip l) "name = " = true
    · rw [if_pos h1] at he
      cases hx : extractVal (pyStrip l) with
      | none => rw [hx] at he; exact Except.noConfusion he
      | some x =>
        rw [hx] at he
        have hx' : x ≠ "" := fun hxe =>
          (h l (List.mem_cons_self l ls) (Or.inl h1)) (hxe ▸ hx)
        exact ih x v p (fun y hy => h y (List.mem_cons_of_mem _ hy)) hx' hv he
    · rw [if_neg h1] at he
      by_cases h2 : pyStartsWith (pyStrip l) "version = " = true
      · rw [if_pos h2] at he
        cases hx : extractVal (pyStrip l) with
        | none => rw [hx] at he; exact Except.noConfusion he
        | some x =>
          rw [hx] at he
          have hx' : x ≠ "" := fun hxe =>
            (h l (List.mem_cons_self l ls) (Or.inr h2)) (hxe ▸ hx)
          exact ih n x p (fun y hy => h y (List.mem_cons_of_mem _ hy)) hn hx' he
      · rw [if_neg h2] at he
        exact ih n v p (fun y hy => h y (List.mem_cons_of_mem _ hy)) hn hv he

/-- C1: whatever exception is raised while reading or parsing the descriptor
file, `get_app_info` catches it and returns the fallback dict — name
`prompt-tuner`, version `unknown`, the python_version / environment /
debug_mode fields, and an `error` field equal to
`Failed to read project info: ` followed by the exception's string
representation.  The function is total, so the exception never propagates. -/
theorem C1_exception_recovered (ver : PyVersion) (env : Env) (e : String) :
    get_app_info ver (FileSys.raises e) env =
      [("name", Value.str "prompt-tuner"),
       ("version", Value.str "unknown"),
       ("python_version", Value.str (verString ver)),
       ("environment", Value.str (env.flask_env.getD "development")),
       ("debug_mode", Value.bool (pyLower (env.flask_debug.getD "false") == "true")),
       ("error", Value.str ("Failed to read project info: " ++ e))] := rfl

/-- C2: for every interpreter version, descriptor-file state, environment
and instant, `get_health_status` returns a dict whose `status` entry is the
string `healthy` and whose `timestamp` entry is `isoformat(now) ++ "Z"`,
a string that the independent character-level recogniser accepts as an
ISO-8601 UTC date-time ending in `Z`. -/
theorem C2_health_status_shape (ver : PyVersion) (fs : FileSys) (env : Env)
    (now : DateTime) :
    ∃ body, get_health_status ver fs env now = some body ∧
      body.lookup "status" = some (Value.str "healthy") ∧
      body.lookup "timestamp" = some (Value.str (pyIsoformat now ++ "Z")) ∧
      isIso8601UTCZ (pyIsoformat now ++ "Z") = true := by
  cases fs with
  | absent => exact ⟨_, rfl, rfl, rfl, isoZ_ok now⟩
  | raises e => exact ⟨_, rfl, rfl, rfl, isoZ_ok now⟩
  | present lines =>
    rcases hs : scanProject lines "prompt-tuner" "unknown" with e | ⟨n, v⟩
    · simp only [get_health_status, get_app_info, hs]
      exact ⟨_, rfl, rfl, rfl, isoZ_ok now⟩
    · simp only [get_health_status, get_app_info, hs]
      exact ⟨_, rfl, rfl, rfl, isoZ_ok now⟩

/-- C3: the `/health` handler always answers with HTTP status 200 and the
dict produced by `get_health_status`, whose keys are exactly
`status, timestamp, service, version, python_version, environment`,
in this order, no more and no fewer. -/
theorem C3_health_endpoint_six_keys (ver : PyVersion) (fs : FileSys) (env : Env)
    (now : DateTime) :
    ∃ body, health_check ver fs env now = some (body, 200) ∧
      body.map Prod.fst =
        ["status", "timestamp", "service", "version", "python_version", "environment"] := by
  cases fs with
  | absent => exact ⟨_, rfl, rfl⟩
  | raises e => exact ⟨_, rfl, rfl⟩
  | present lines =>
    rcases hs : scanProject lines "prompt-tuner" "unknown" with e | ⟨n, v⟩
    · simp only [health_check, get_health_status, get_app_info, hs]
      exact ⟨_, rfl, rfl⟩
    · simp only [health_check, get_health_status, get_app_info, hs]
      exact ⟨_, rfl, rfl⟩

/-- C4 is false as stated: at the concrete input where reading the
descriptor raises `boom`, `get_health_status` still returns a dict, but
that dict has no `error` entry — the diagnostic stays in `get_app_info`'s
result and is not copied into the health payload. -/
theorem C4_counterexample :
    (get_health_status ver0 (FileSys.raises "boom") env0 dt0).isSome = true ∧
    ((get_health_status ver0 (FileSys.raises "boom") env0 dt0).getD []).lookup "error" =
      none := by
  exact ⟨rfl, rfl⟩

/-- C4 amended: when reading or parsing the descriptor raises, the dict
returned by `get_app_info` carries the diagnostic `error` string, while the
health-endpoint payload returned by `get_health_status` contains no `error`
entry; the endpoint still succeeds, reporting the default service name
`prompt-tuner` and version `unknown`. -/
theorem C4_amended_error_in_app_info_only (ver : PyVersion) (env : Env)
    (e : String) (now : DateTime) :
    (get_app_info ver (FileSys.raises e) env).lookup "error" =
      some (Value.str ("Failed to read project info: " ++ e)) ∧
    ∃ body, get_health_status ver (FileSys.raises e) env now = some body ∧
      body.lookup "error" = none ∧
      body.lookup "service" = some (Value.str "prompt-tuner") ∧
      body.lookup "version" = some (Value.str "unknown") :=
  ⟨rfl, _, rfl, rfl, rfl, rfl⟩

/-- C5: when the descriptor file is absent, or present but with no stripped
line starting with `name = ` and none starting with `version = `,
`get_app_info` returns name `prompt-tuner`, version `unknown`, and the
dict has no `error` key. -/
theorem C5_defaults_without_matching_lines (ver : PyVersion) (env : Env)
    (fs : FileSys)
    (h : fs = FileSys.absent ∨ ∃ lines, fs = FileSys.present lines ∧
      ∀ l ∈ lines, pyStartsWith (pyStrip l) "name = " = false ∧
        pyStartsWith (pyStrip l) "version = " = false) :
    (get_app_info ver fs env).lookup "name" = some (Value.str "prompt-tuner") ∧
    (get_app_info ver fs env).lookup "version" = some (Value.str "unknown") ∧
    (get_app_info ver fs env).lookup "error" = none := by
  rcases h with rfl | ⟨lines, rfl, hl⟩
  · exact ⟨rfl, rfl, rfl⟩
  · have hs := scanProject_no_match lines "prompt-tuner" "unknown" hl
    simp only [get_app_info, hs]
    exact ⟨rfl, rfl, rfl⟩

/-- Witness for C5 at a present file whose single line matches no key. -/
theorem C5_defaults_witness :
    (get_app_info ver0 (FileSys.present ["[tool.poetry]"]) env0).lookup "name" =
      some (Value.str "prompt-tuner") ∧
    (get_app_info ver0 (FileSys.present ["[tool.poetry]"]) env0).lookup "version" =
      some (Value.str "unknown") ∧
    (get_app_info ver0 (FileSys.present ["[tool.poetry]"]) env0).lookup "error" = none :=
  C5_defaults_without_matching_lines ver0 env0 _
    (Or.inr ⟨["[tool.poetry]"], rfl, by decide⟩)

/-- C6 is false as stated: the descriptor line `name = ""` parses to the
empty string, so the `name` field of `get_app_info`'s result is the empty
string — not a non-empty string. -/
theorem C6_counterexample :
    (get_app_info ver0 (FileSys.present ["name = \"\""]) env0).lookup "name" =
      some (Value.str "") := by
  decide

/-- C6 amended: the `name` and `version` fields are always strings — either
parsed values or the defaults — and they are non-empty provided every
`name = ` / `version = ` line of the descriptor extracts a non-empty value;
a line with an empty quoted value (such as `name = ""`) makes the
corresponding field empty. -/
theorem C6_nonempty_unless_empty_value (ver : PyVersion) (env : Env)
    (lines : List String)
    (h : ∀ l ∈ lines,
      (pyStartsWith (pyStrip l) "name = " = true ∨
       pyStartsWith (pyStrip l) "version = " = true) →
      extractVal (pyStrip l) ≠ some "") :
    strField (get_app_info ver (FileSys.present lines) env) "name" ≠ none ∧
    strField (get_app_info ver (FileSys.present lines) env) "name" ≠ some "" ∧
    strField (get_app_info ver (FileSys.present lines) env) "version" ≠ none ∧
    strField (get_app_info ver (FileSys.present lines) env) "version" ≠ some "" := by
  rcases hs : scanProject lines "prompt-tuner" "unknown" with e | ⟨n, v⟩
  · have e1 : strField (get_app_info ver (FileSys.present lines) env) "name" =
        some "prompt-tuner" := by simp only [get_app_info, hs]; rfl
    have e2 : strField (get_app_info ver (FileSys.present lines) env) "version" =
        some "unknown" := by simp only [get_app_info, hs]; rfl
    rw [e1, e2]
    exact ⟨by decide, by decide, by decide, by decide⟩
  · obtain ⟨h1, h2⟩ := scanProject_ne_empty lines "prompt-tuner" "unknown" (n, v)
      h (by decide) (by decide) hs
    have e1 : strField (get_app_info ver (FileSys.present lines) env) "name" =
        some n := by simp only [get_app_info, hs]; rfl
    have e2 : strField (get_app_info ver (FileSys.present lines) env) "version" =
        some v := by simp only [get_app_info, hs]; rfl
    rw [e1, e2]
    refine ⟨by simp, fun hc => h1 ?_, by simp, fun hc => h2 ?_⟩
    · injection hc
    · injection hc

/-- Witness for C6 amended at a file whose one `name = ` line extracts a
non-empty value. -/
theorem C6_nonempty_witness :
    strField (get_app_info ver0 (FileSys.present ["name = \"real\""]) env0) "name" ≠ none ∧
    strField (get_app_info ver0 (FileSys.present ["name = \"real\""]) env0) "name" ≠ some "" ∧
    strField (get_app_info ver0 (FileSys.present ["name = \"real\""]) env0) "version" ≠ none ∧
    strField (get_app_info ver0 (FileSys.present ["name = \"real\""]) env0) "version" ≠ some "" :=
  C6_nonempty_unless_empty_value ver0 env0 ["name = \"real\""] (by decide)

/-- C7: on a descriptor containing `name = "prompt-tuner"` and
`version = "0.2.0"`, the line scan extracts both values with the quotes
stripped. -/
theorem C7_concrete_scenario (ver : PyVersion) (env : Env) :
    (get_app_info ver
      (FileSys.present ["name = \"prompt-tuner\"", "version = \"0.2.0\""]) env).lookup
        "name" = some (Value.str "prompt-tuner") ∧
    (get_app_info ver
      (FileSys.present ["name = \"prompt-tuner\"", "version = \"0.2.0\""]) env).lookup
        "version" = some (Value.str "0.2.0") :=
  ⟨rfl, rfl⟩

/-- C8: the `environment` field equals the environment-name variable when
set and `development` otherwise, and the `debug_mode` field is true exactly
when the lower-cased debug-flag variable (defaulting to `false` when unset)
equals `true`. -/
theorem C8_environment_and_debug (ver : PyVersion) (fs : FileSys) (env : Env) :
    (get_app_info ver fs env).lookup "environment" =
      some (Value.str (env.flask_env.getD "development")) ∧
    ∃ b, (get_app_info ver fs env).lookup "debug_mode" = some (Value.bool b) ∧
      (b = true ↔ pyLower (env.flask_debug.getD "false") = "true") := by
  cases fs with
  | absent => exact ⟨rfl, _, rfl, by simp⟩
  | raises e => exact ⟨rfl, _, rfl, by simp⟩
  | present lines =>
    rcases hs : scanProject lines "prompt-tuner" "unknown" with e | ⟨n, v⟩
    · simp only [get_app_info, hs]
      exact ⟨rfl, _, rfl, by simp⟩
    · simp only [get_app_info, hs]
      exact ⟨rfl, _, rfl, by simp⟩

lemma scanProject_keeps_name (post : List String) :
    ∀ n v, (∀ l ∈ post, pyStartsWith (pyStrip l) "name = " = false) →
    ∃ v', scanProject post n v = .ok (n, v') := by
  induction post with
  | nil => exact fun n v _ => ⟨v, rfl⟩
  | cons l ls ih =>
    intro n v h
    have h1 := h l (List.mem_cons_self l ls)
    simp only [scanProject]
    rw [if_neg (by simp [h1])]
    by_cases h2 : pyStartsWith (pyStrip l) "version = " = true
    · rw [if_pos h2]
      obtain ⟨x, hx⟩ := extractVal_isSome (startsWith_version_mem_eq h2)
      rw [hx]
      exact ih n x (fun y hy => h y (List.mem_cons_of_mem _ hy))
    · rw [if_neg h2]
      exact ih n v (fun y hy => h y (List.mem_cons_of_mem _ hy))

lemma scanProject_keeps_version (post : List String) :
    ∀ n v, (∀ l ∈ post, pyStartsWith (pyStrip l) "version = " = false) →
    ∃ n', scanProject post n v = .ok (n', v) := by
  induction post with
  | nil => exact fun n v _ => ⟨n, rfl⟩
  | cons l ls ih =>
    intro n v h
    have h2 := h l (List.mem_cons_self l ls)
    simp only [scanProject]
    by_cases h1 : pyStartsWith (pyStrip l) "name = " = true
    · rw [if_pos h1]
      obtain ⟨x, hx⟩ := extractVal_isSome (startsWith_name_mem_eq h1)
      rw [hx]
      exact ih x v (fun y hy => h y (List.mem_cons_of_mem _ hy))
    · rw [if_neg h1, if_neg (by simp [h2])]
      exact ih n v (fun y hy => h y (List.mem_cons_of_mem _ hy))

/-- C9: in any descriptor file split around its last `name = ` line
(`pre`, then the matching line `l`, then arbitrary lines `post` none of
which is a `name = ` line), the returned name is the value extracted from
`l` — each matching line overwrites the previously extracted value as the
scan proceeds, so the last match wins whatever precedes or follows it;
symmetrically for `version = ` lines. -/
theorem C9_last_matching_line_wins (ver : PyVersion) (env : Env)
    (pre post : List String) (l : String) (x : String) :
    (pyStartsWith (pyStrip l) "name = " = true → extractVal (pyStrip l) = some x →
      (∀ l' ∈ post, pyStartsWith (pyStrip l') "name = " = false) →
      (get_app_info ver (FileSys.present (pre ++ l :: post)) env).lookup "name" =
        some (Value.str x)) ∧
    (pyStartsWith (pyStrip l) "version = " = true → extractVal (pyStrip l) = some x →
      (∀ l' ∈ post, pyStartsWith (pyStrip l') "version = " = false) →
      (get_app_info ver (FileSys.present (pre ++ l :: post)) env).lookup "version" =
        some (Value.str x)) := by
  obtain ⟨⟨n0, v0⟩, hs⟩ := scanProject_ok pre "prompt-tuner" "unknown"
  constructor
  · intro h1 hv hpost
    obtain ⟨v', hrest⟩ := scanProject_keeps_name post x v0 hpost
    have hstep : scanProject (pre ++ l :: post) "prompt-tuner" "unknown" =
        .ok (x, v') := by
      rw [scanProject_append pre (l :: post) "prompt-tuner" "unknown", hs]
      show scanProject (l :: post) n0 v0 = .ok (x, v')
      simp only [scanProject]
      rw [if_pos h1, hv]
      exact hrest
    simp only [get_app_info, hstep]
    rfl
  · intro h2 hv hpost
    have h1 := version_not_name h2
    obtain ⟨n', hrest⟩ := scanProject_keeps_version post n0 x hpost
    have hstep : scanProject (pre ++ l :: post) "prompt-tuner" "unknown" =
        .ok (n', x) := by
      rw [scanProject_append pre (l :: post) "prompt-tuner" "unknown", hs]
      show scanProject (l :: post) n0 v0 = .ok (n', x)
      simp only [scanProject]
      rw [if_neg (by simp [h1]), if_pos h2, hv]
      exact hrest
    simp only [get_app_info, hstep]
    rfl

/-- Witness for C9: the second `name = ` line wins even with trailing
content after it, and the last `version = ` line survives a later
`name = ` line. -/
theorem C9_last_match_witness :
    (get_app_info ver0
      (FileSys.present (["name = \"a\""] ++ "name = \"b\"" :: ["foo"])) env0).lookup
        "name" = some (Value.str "b") ∧
    (get_app_info ver0
      (FileSys.present
        (["version = \"0.1\""] ++ "version = \"0.2\"" :: ["name = \"x\""])) env0).lookup
        "version" = some (Value.str "0.2") :=
  ⟨(C9_last_matching_line_wins ver0 env0 ["name = \"a\""] ["foo"]
      "name = \"b\"" "b").1 (by decide) (by decide) (by decide),
   (C9_last_matching_line_wins ver0 env0 ["version = \"0.1\""] ["name = \"x\""]
      "version = \"0.2\"" "0.2").2 (by decide) (by decide) (by decide)⟩

/-- C10: `get_app_info` is a pure function of the descriptor-file state and
the two environment variables (the interpreter version being a constant of
the running process): two calls with identical inputs return equal dicts,
and the embedding exhibits no other input or hidden state. -/
theorem C10_deterministic (ver : PyVersion) (fs fs' : FileSys) (env env' : Env)
    (hfs : fs = fs') (henv : env = env') :
    get_app_info ver fs env = get_app_info ver fs' env' := by
  subst hfs
  subst henv
  rfl

/-- Witness for C10 at concrete equal inputs. -/
theorem C10_deterministic_witness :
    get_app_info ver0 FileSys.absent env0 = get_app_info ver0 FileSys.absent env0 :=
  C10_deterministic ver0 FileSys.absent FileSys.absent env0 env0 rfl rfl

end PromptTuner
